import Mathlib

set_option maxRecDepth 4096

/-!
Shallow embedding of src/blink_led_modular/src/blink.c.

The C file is:

  void blink_led_init(void){
      DDRB |= (1 << PB0);
  }
  void blink_led(void){
      PORTB |= (1 << PB0);
      _delay_ms(1000);
      PORTB &= ~(1 << PB0);
      _delay_ms(1000);
  }

DDRB (direction-control register) and PORTB (output-data register) are
memory-mapped 8-bit registers; PB0 is bit index 0.  We model the two
registers as natural numbers, with truncation to 8 bits applied at every
register write (the registers are uint8_t, so any stored value is reduced
mod 2^8).  Each function is modelled as a pure function from the register
state to the new register state together with the trace of its observable
effects: register writes and blocking millisecond delays.
-/

/-- Truncation of a value to 8 bits, applied at every hardware register
write (the registers are uint8_t). -/
def mask8 (x : Nat) : Nat := x % 2 ^ 8

/-- The 8-bit truncation of the C bitwise complement, as it takes effect
when the int-valued expression (~m) is stored into an 8-bit register. -/
def compl8 (m : Nat) : Nat := (2 ^ 8 - 1) ^^^ mask8 m

/-- Bit index of the controlled pin: PB0 = 0 in avr/io.h. -/
def PB0 : Nat := 0

/-- The register state visible to the program: the direction-control
register DDRB and the output-data register PORTB. -/
structure AVRState where
  DDRB : Nat
  PORTB : Nat
deriving DecidableEq, Repr

/-- One observable effect: a write of a value to one of the two registers,
or a blocking busy-wait delay of a number of milliseconds. -/
inductive Event where
  | writeDDRB : Nat → Event
  | writePORTB : Nat → Event
  | delayMs : Nat → Event
deriving DecidableEq, Repr

/-- Embedding of blink_led_init: DDRB |= (1 << PB0).  Returns the new
register state and the trace of effects (a single DDRB write). -/
def blink_led_init (s : AVRState) : AVRState × List Event :=
  let d := mask8 (s.DDRB ||| (1 <<< PB0))
  ({ s with DDRB := d }, [Event.writeDDRB d])

/-- Embedding of blink_led:
PORTB |= (1 << PB0); _delay_ms(1000); PORTB &= ~(1 << PB0);
_delay_ms(1000).  Returns the new register state and the trace of
effects in program order. -/
def blink_led (s : AVRState) : AVRState × List Event :=
  let hi := mask8 (s.PORTB ||| (1 <<< PB0))
  let lo := mask8 (hi &&& compl8 (1 <<< PB0))
  ({ s with PORTB := lo },
   [Event.writePORTB hi, Event.delayMs 1000,
    Event.writePORTB lo, Event.delayMs 1000])

/-- State part of blink_led_init, for iteration. -/
def initState (s : AVRState) : AVRState := (blink_led_init s).1

/-- State part of blink_led, for iteration. -/
def blinkState (s : AVRState) : AVRState := (blink_led s).1

/-- N sequential calls to blink_led, accumulating the trace. -/
def blinkN : Nat → AVRState → AVRState × List Event
  | 0, s => (s, [])
  | n + 1, s =>
    let r := blink_led s
    let r2 := blinkN n r.1
    (r2.1, r.2 ++ r2.2)

/-- The scenario of the spec: one blink_led_init call followed by n
blink_led calls, with the combined trace. -/
def run (s : AVRState) (n : Nat) : AVRState × List Event :=
  let r := blink_led_init s
  let r2 := blinkN n r.1
  (r2.1, r.2 ++ r2.2)

/-- The millisecond durations of the delay events of a trace, in order. -/
def delays (tr : List Event) : List Nat :=
  tr.filterMap fun e => match e with
    | Event.delayMs m => some m
    | _ => none

/-- The values written to PORTB in a trace, in order. -/
def portbWrites (tr : List Event) : List Nat :=
  tr.filterMap fun e => match e with
    | Event.writePORTB v => some v
    | _ => none

/-- The levels driven onto pin PB0 by the PORTB writes of a trace: bit 0
of each written value, in order. -/
def bit0Writes (tr : List Event) : List Bool :=
  (portbWrites tr).map fun v => v.testBit 0

/-- Whether a trace contains no write to DDRB. -/
def noDDRBWrite (tr : List Event) : Bool :=
  tr.all fun e => match e with
    | Event.writeDDRB _ => false
    | _ => true

lemma mask8_lt (x : Nat) : mask8 x < 256 := by
  have h : 0 < 2 ^ 8 := by norm_num
  have := Nat.mod_lt x h
  simpa [mask8] using this

lemma mask8_or_one (d : Nat) (h : d < 256) :
    mask8 (d ||| (1 <<< PB0)) = d ||| (1 <<< 0) := by
  have key : ∀ e < 256, mask8 (e ||| (1 <<< PB0)) = e ||| (1 <<< 0) := by decide
  exact key d h

/-- C2: blink_led_init sets exactly bit 0 of DDRB: the new value equals the
old value bitwise-OR (1 <<< 0); bit 0 of the new value is 1, and every
other bit of the 8-bit register keeps its pre-call value. -/
theorem init_direction_register (s : AVRState) (h : s.DDRB < 256) :
    (blink_led_init s).1.DDRB = s.DDRB ||| (1 <<< 0) ∧
    Nat.testBit (blink_led_init s).1.DDRB 0 = true ∧
    ∀ i, i < 8 → i ≠ 0 →
      Nat.testBit (blink_led_init s).1.DDRB i = Nat.testBit s.DDRB i := by
  have hval : (blink_led_init s).1.DDRB = mask8 (s.DDRB ||| (1 <<< PB0)) := rfl
  rw [hval, mask8_or_one s.DDRB h]
  have key : ∀ d < 256, Nat.testBit (d ||| (1 <<< 0)) 0 = true ∧
      ∀ i, i < 8 → i ≠ 0 →
        Nat.testBit (d ||| (1 <<< 0)) i = Nat.testBit d i := by decide
  exact ⟨rfl, key s.DDRB h⟩

/-- Witness for C2 at DDRB = 170, PORTB = 5. -/
theorem init_direction_register_witness :
    (⟨170, 5⟩ : AVRState).DDRB < 256 ∧
    ((blink_led_init ⟨170, 5⟩).1.DDRB = 170 ||| (1 <<< 0) ∧
     Nat.testBit (blink_led_init ⟨170, 5⟩).1.DDRB 0 = true ∧
     ∀ i, i < 8 → i ≠ 0 →
       Nat.testBit (blink_led_init ⟨170, 5⟩).1.DDRB i = Nat.testBit 170 i) :=
  ⟨by decide, init_direction_register ⟨170, 5⟩ (by decide)⟩

/-- C5: each call to blink_led performs exactly two blocking delays, each
of 1000 milliseconds, and nothing else suspends: the delay events of the
trace are exactly [1000, 1000], totalling 2000 ms per call. -/
theorem blink_delays (s : AVRState) :
    delays (blink_led s).2 = [1000, 1000] ∧
    (delays (blink_led s).2).sum = 2000 := by
  constructor <;> rfl

/-- C7: the only side effect of blink_led_init is the single write to the
direction-control register DDRB: the trace is one writeDDRB event, and
the output-data register PORTB is unchanged by the call. -/
theorem init_frame (s : AVRState) :
    (blink_led_init s).1.PORTB = s.PORTB ∧
    (blink_led_init s).2 = [Event.writeDDRB ((blink_led_init s).1.DDRB)] ∧
    delays (blink_led_init s).2 = [] ∧
    portbWrites (blink_led_init s).2 = [] := by
  refine ⟨rfl, rfl, rfl, rfl⟩

/-- C8: blink_led never touches the direction-control register: DDRB after
the call equals DDRB before it, and the trace contains no DDRB write. -/
theorem blink_preserves_ddrb (s : AVRState) :
    (blink_led s).1.DDRB = s.DDRB ∧ noDDRBWrite (blink_led s).2 = true := by
  exact ⟨rfl, rfl⟩

/-- C10: both operations are deterministic: started from equal register
states, two runs of either produce equal final states and equal traces. -/
theorem blink_deterministic (s t : AVRState) (h : s = t) :
    blink_led_init s = blink_led_init t ∧ blink_led s = blink_led t := by
  subst h
  exact ⟨rfl, rfl⟩

/-- Witness for C10 at the state DDRB = 3, PORTB = 200. -/
theorem blink_deterministic_witness :
    (⟨3, 200⟩ : AVRState) = ⟨3, 200⟩ ∧
    (blink_led_init ⟨3, 200⟩ = blink_led_init ⟨3, 200⟩ ∧
     blink_led ⟨3, 200⟩ = blink_led ⟨3, 200⟩) :=
  ⟨rfl, blink_deterministic ⟨3, 200⟩ ⟨3, 200⟩ rfl⟩

lemma blink_bounded_facts :
    ∀ p < 256,
      mask8 (p ||| (1 <<< PB0)) = p ||| (1 <<< PB0) ∧
      mask8 (mask8 (p ||| (1 <<< PB0)) &&& compl8 (1 <<< PB0)) =
        (p ||| (1 <<< PB0)) &&& compl8 (1 <<< PB0) ∧
      Nat.testBit (p ||| (1 <<< PB0)) 0 = true ∧
      Nat.testBit ((p ||| (1 <<< PB0)) &&& compl8 (1 <<< PB0)) 0 = false := by
  decide

/-- C1: for every prior PORTB state, one blink_led call performs exactly
this sequence: write PORTB with bit 0 forced high by bitwise OR, block
1000 ms, write PORTB with bit 0 cleared by bitwise AND with the 8-bit
complement of the bit, block another 1000 ms; the HIGH write precedes the
LOW write in the trace. -/
theorem blink_trace (s : AVRState) (h : s.PORTB < 256) :
    (blink_led s).2 =
      [Event.writePORTB (s.PORTB ||| (1 <<< PB0)),
       Event.delayMs 1000,
       Event.writePORTB ((s.PORTB ||| (1 <<< PB0)) &&& compl8 (1 <<< PB0)),
       Event.delayMs 1000] ∧
    Nat.testBit (s.PORTB ||| (1 <<< PB0)) 0 = true ∧
    Nat.testBit ((s.PORTB ||| (1 <<< PB0)) &&& compl8 (1 <<< PB0)) 0 = false := by
  obtain ⟨h1, h2, h3, h4⟩ := blink_bounded_facts s.PORTB h
  refine ⟨?_, h3, h4⟩
  show [Event.writePORTB (mask8 (s.PORTB ||| (1 <<< PB0))),
        Event.delayMs 1000,
        Event.writePORTB (mask8 (mask8 (s.PORTB ||| (1 <<< PB0)) &&&
          compl8 (1 <<< PB0))),
        Event.delayMs 1000] = _
  rw [h2, h1]

/-- Witness for C1 at PORTB = 204. -/
theorem blink_trace_witness :
    (⟨0, 204⟩ : AVRState).PORTB < 256 ∧
    ((blink_led ⟨0, 204⟩).2 =
      [Event.writePORTB (204 ||| (1 <<< PB0)),
       Event.delayMs 1000,
       Event.writePORTB ((204 ||| (1 <<< PB0)) &&& compl8 (1 <<< PB0)),
       Event.delayMs 1000] ∧
     Nat.testBit (204 ||| (1 <<< PB0)) 0 = true ∧
     Nat.testBit ((204 ||| (1 <<< PB0)) &&& compl8 (1 <<< PB0)) 0 = false) :=
  ⟨by decide, blink_trace ⟨0, 204⟩ (by decide)⟩

/-- C3: a blink_led call leaves every bit of the 8-bit output register
other than bit 0 unchanged: each value written to PORTB during the call
agrees with the pre-call PORTB on every bit index i < 8 with i ≠ 0. -/
theorem blink_other_bits_unchanged (s : AVRState) (h : s.PORTB < 256) :
    ∀ v ∈ portbWrites (blink_led s).2, ∀ i, i < 8 → i ≠ 0 →
      Nat.testBit v i = Nat.testBit s.PORTB i := by
  have key : ∀ p < 256, ∀ i < 8, i ≠ 0 →
      Nat.testBit (mask8 (p ||| (1 <<< PB0))) i = Nat.testBit p i ∧
      Nat.testBit (mask8 (mask8 (p ||| (1 <<< PB0)) &&& compl8 (1 <<< PB0))) i =
        Nat.testBit p i := by
    decide
  intro v hv i hi hi0
  have hw : portbWrites (blink_led s).2 =
      [mask8 (s.PORTB ||| (1 <<< PB0)),
       mask8 (mask8 (s.PORTB ||| (1 <<< PB0)) &&& compl8 (1 <<< PB0))] := rfl
  rw [hw] at hv
  simp only [List.mem_cons, List.not_mem_nil, or_false] at hv
  rcases hv with hv | hv
  · rw [hv]
    exact (key s.PORTB h i hi hi0).1
  · rw [hv]
    exact (key s.PORTB h i hi hi0).2

/-- Witness for C3 at PORTB = 204. -/
theorem blink_other_bits_unchanged_witness :
    (⟨0, 204⟩ : AVRState).PORTB < 256 ∧
    (∀ v ∈ portbWrites (blink_led ⟨0, 204⟩).2, ∀ i, i < 8 → i ≠ 0 →
      Nat.testBit v i = Nat.testBit (⟨0, 204⟩ : AVRState).PORTB i) :=
  ⟨by decide, blink_other_bits_unchanged ⟨0, 204⟩ (by decide)⟩

lemma init_ddrb_lt (s : AVRState) : (initState s).DDRB < 256 := mask8_lt _

lemma init_idem_once (s : AVRState) (h : s.DDRB < 256) :
    initState (initState s) = initState s := by
  have key : ∀ d < 256,
      mask8 (mask8 (d ||| (1 <<< PB0)) ||| (1 <<< PB0)) =
        mask8 (d ||| (1 <<< PB0)) := by decide
  show AVRState.mk (mask8 (mask8 (s.DDRB ||| (1 <<< PB0)) ||| (1 <<< PB0)))
        s.PORTB =
      AVRState.mk (mask8 (s.DDRB ||| (1 <<< PB0))) s.PORTB
  rw [key s.DDRB h]

lemma init_iter_succ : ∀ (n : Nat) (s : AVRState), s.DDRB < 256 →
    initState^[n + 1] s = initState s := by
  intro n
  induction n with
  | zero => intro s _; rfl
  | succ n ih =>
    intro s h
    rw [Function.iterate_succ_apply]
    rw [ih (initState s) (init_ddrb_lt s)]
    exact init_idem_once s h

/-- C4: blink_led_init is idempotent: from any 8-bit direction-register
state, n successive calls (n at least 1) leave the register state exactly
as a single call does. -/
theorem init_idempotent (s : AVRState) (h : s.DDRB < 256) (n : Nat)
    (hn : 1 ≤ n) : initState^[n] s = initState s := by
  obtain ⟨m, rfl⟩ : ∃ m, n = m + 1 := ⟨n - 1, by omega⟩
  exact init_iter_succ m s h

/-- Witness for C4 at DDRB = 99 and n = 5. -/
theorem init_idempotent_witness :
    (⟨99, 7⟩ : AVRState).DDRB < 256 ∧ 1 ≤ 5 ∧
    initState^[5] ⟨99, 7⟩ = initState ⟨99, 7⟩ :=
  ⟨by decide, by decide, init_idempotent ⟨99, 7⟩ (by decide) 5 (by decide)⟩

lemma blink_portb_lt (s : AVRState) : (blinkState s).PORTB < 256 := mask8_lt _

lemma blink_idem_once (s : AVRState) (h : s.PORTB < 256) :
    blinkState (blinkState s) = blinkState s := by
  have key : ∀ p < 256,
      mask8 (mask8 (mask8 (mask8 (p ||| (1 <<< PB0)) &&& compl8 (1 <<< PB0))
          ||| (1 <<< PB0)) &&& compl8 (1 <<< PB0)) =
        mask8 (mask8 (p ||| (1 <<< PB0)) &&& compl8 (1 <<< PB0)) := by decide
  show AVRState.mk s.DDRB
        (mask8 (mask8 (mask8 (mask8 (s.PORTB ||| (1 <<< PB0)) &&&
          compl8 (1 <<< PB0)) ||| (1 <<< PB0)) &&& compl8 (1 <<< PB0))) =
      AVRState.mk s.DDRB
        (mask8 (mask8 (s.PORTB ||| (1 <<< PB0)) &&& compl8 (1 <<< PB0)))
  rw [key s.PORTB h]

lemma blink_iter_succ : ∀ (n : Nat) (s : AVRState), s.PORTB < 256 →
    blinkState^[n + 1] s = blinkState s := by
  intro n
  induction n with
  | zero => intro s _; rfl
  | succ n ih =>
    intro s h
    rw [Function.iterate_succ_apply]
    rw [ih (blinkState s) (blink_portb_lt s)]
    exact blink_idem_once s h

/-- C9: for any 8-bit PORTB state, the final PORTB after one blink_led
call is the initial value bitwise-AND the complement of (1 <<< 0), so bit
0 ends 0 regardless of its initial level, and n consecutive calls (n at
least 1) leave the register state exactly as a single call does. -/
theorem blink_portb_final (s : AVRState) (h : s.PORTB < 256) :
    (blink_led s).1.PORTB = s.PORTB &&& compl8 (1 <<< 0) ∧
    Nat.testBit (blink_led s).1.PORTB 0 = false ∧
    ∀ n, 1 ≤ n → blinkState^[n] s = blinkState s := by
  have key : ∀ p < 256,
      mask8 (mask8 (p ||| (1 <<< PB0)) &&& compl8 (1 <<< PB0)) =
        p &&& compl8 (1 <<< 0) ∧
      Nat.testBit (mask8 (mask8 (p ||| (1 <<< PB0)) &&&
        compl8 (1 <<< PB0))) 0 = false := by decide
  obtain ⟨h1, h2⟩ := key s.PORTB h
  refine ⟨h1, h2, ?_⟩
  intro n hn
  obtain ⟨m, rfl⟩ : ∃ m, n = m + 1 := ⟨n - 1, by omega⟩
  exact blink_iter_succ m s h

/-- Witness for C9 at PORTB = 105. -/
theorem blink_portb_final_witness :
    (⟨0, 105⟩ : AVRState).PORTB < 256 ∧
    ((blink_led ⟨0, 105⟩).1.PORTB = 105 &&& compl8 (1 <<< 0) ∧
     Nat.testBit (blink_led ⟨0, 105⟩).1.PORTB 0 = false ∧
     ∀ n, 1 ≤ n → blinkState^[n] ⟨0, 105⟩ = blinkState ⟨0, 105⟩) :=
  ⟨by decide, blink_portb_final ⟨0, 105⟩ (by decide)⟩

lemma bit0Writes_append (a b : List Event) :
    bit0Writes (a ++ b) = bit0Writes a ++ bit0Writes b := by
  simp [bit0Writes, portbWrites, List.filterMap_append]

lemma blink_bit0_pair (s : AVRState) (h : s.PORTB < 256) :
    bit0Writes (blink_led s).2 = [true, false] := by
  obtain ⟨h1, h2, h3, h4⟩ := blink_bounded_facts s.PORTB h
  show [Nat.testBit (mask8 (s.PORTB ||| (1 <<< PB0))) 0,
        Nat.testBit (mask8 (mask8 (s.PORTB ||| (1 <<< PB0)) &&&
          compl8 (1 <<< PB0))) 0] = [true, false]
  rw [h2, h1, h3, h4]

lemma blinkN_bit0 : ∀ (n : Nat) (s : AVRState), s.PORTB < 256 →
    bit0Writes (blinkN n s).2 = List.flatten (List.replicate n [true, false]) := by
  intro n
  induction n with
  | zero => intro s _; rfl
  | succ n ih =>
    intro s h
    show bit0Writes ((blink_led s).2 ++ (blinkN n (blink_led s).1).2) = _
    rw [bit0Writes_append, blink_bit0_pair s h, List.replicate_succ,
      List.flatten_cons, ih (blink_led s).1 (mask8_lt _)]

/-- C6: for every natural number n and every 8-bit initial register state,
blink_led_init followed by n sequential blink_led calls drives exactly n
complete high/low pulses on pin PB0: the sequence of levels written to bit
0 of the output register is n repetitions of (1 then 0). -/
theorem run_pulses (s : AVRState) (h : s.PORTB < 256) (n : Nat) :
    bit0Writes (run s n).2 = List.flatten (List.replicate n [true, false]) := by
  show bit0Writes ((blink_led_init s).2 ++ (blinkN n (blink_led_init s).1).2) = _
  rw [bit0Writes_append]
  have h0 : bit0Writes (blink_led_init s).2 = [] := rfl
  rw [h0, List.nil_append]
  exact blinkN_bit0 n (blink_led_init s).1 h

/-- Witness for C6 at DDRB = 17, PORTB = 42 and n = 3. -/
theorem run_pulses_witness :
    (⟨17, 42⟩ : AVRState).PORTB < 256 ∧
    bit0Writes (run ⟨17, 42⟩ 3).2 = List.flatten (List.replicate 3 [true, false]) :=
  ⟨by decide, run_pulses ⟨17, 42⟩ (by decide) 3⟩
